import Mathlib

/-!
Formal model of the command-dispatch and safe-invocation layer of the
home-mcp server (src/index.ts): the single-quote shell-quoting engine used
by `runAppleScript` and `runShortcut`, the command builders, and the
`CallToolRequestSchema` handler that maps tool requests to responses.
External process execution (`execSync`) is modelled by an abstract
function `exec : String → Except ExecError String`: a successful call
returns the captured stdout, a failing call throws an error object
carrying an optional `stderr` capture and a `message`.
-/

/-- The single-quote escaping used when building command lines: every `'`
in the input is replaced by the five-character sequence `'"'"'`.
This models the JavaScript expression `s.replace(/'/g, "'\"'\"'")` from
`runAppleScript` and `runShortcut` in src/index.ts, working on the
character list of the string. -/
def escQuoteL : List Char → List Char
  | [] => []
  | c :: cs =>
    if c = '\'' then '\'' :: '"' :: '\'' :: '"' :: '\'' :: escQuoteL cs
    else c :: escQuoteL cs

/-- String-level version of the quote escaping. -/
def escQuote (s : String) : String := ⟨escQuoteL s.data⟩

/-- Wrapping of a caller-supplied string into a single-quoted shell
literal, as done inline in `runAppleScript` (`osascript -e '<escaped>'`)
and `runShortcut` (`shortcuts run '<escaped>' [-i '<escaped>']`). -/
def quoteArg (s : String) : String := "'" ++ escQuote s ++ "'"

/-- Shell metacharacters that make an unquoted character something other
than a plain literal character (word separators, control operators,
redirections, expansion and globbing characters).  Char 96 is the
backtick. -/
def shMeta (c : Char) : Bool :=
  c = ' ' || c = '\t' || c = '\n' || c = '|' || c = '&' || c = ';' ||
  c = '<' || c = '>' || c = '(' || c = ')' || c = '$' ||
  c = Char.ofNat 96 || c = '*' || c = '?' || c = '[' || c = '~'

/-- Quoting state of a POSIX shell word parser: outside quotes, inside
single quotes, inside double quotes. -/
inductive ShMode
  | unq
  | sq
  | dq
deriving DecidableEq, Repr

/-- A POSIX-compatible shell-literal parser for a single word.  It
returns `some l` when the input is one word whose expansion is the plain
literal `l`, and `none` when the input is not such a word (unbalanced
quotes, metacharacters, or characters that are subject to expansion:
`$` and backtick, and backslash inside double quotes).  Outside quotes a
backslash escapes the following character (a backslash-newline is a line
continuation and disappears); inside single quotes every character up to
the closing quote is literal; inside double quotes every character except
`"` `$` backtick `\` is literal. -/
def shellParseL : ShMode → List Char → Option (List Char)
  | .unq, [] => some []
  | .unq, c :: cs =>
    if c = '\'' then shellParseL .sq cs
    else if c = '"' then shellParseL .dq cs
    else if c = '\\' then
      match cs with
      | [] => none
      | d :: ds =>
        if d = '\n' then shellParseL .unq ds
        else (shellParseL .unq ds).map (fun r => d :: r)
    else if shMeta c then none
    else (shellParseL .unq cs).map (fun r => c :: r)
  | .sq, [] => none
  | .sq, c :: cs =>
    if c = '\'' then shellParseL .unq cs
    else (shellParseL .sq cs).map (fun r => c :: r)
  | .dq, [] => none
  | .dq, c :: cs =>
    if c = '"' then shellParseL .unq cs
    else if c = '$' || c = Char.ofNat 96 || c = '\\' then none
    else (shellParseL .dq cs).map (fun r => c :: r)

/-- String-level shell-literal parsing: the value a POSIX shell would
produce for the given word, when it is a plain literal word. -/
def shellParse (s : String) : Option String :=
  (shellParseL ShMode.unq s.data).map (fun l => ⟨l⟩)

theorem shellParseL_sq_quote (l : List Char) :
    shellParseL ShMode.sq ('\'' :: l) = shellParseL ShMode.unq l := by
  simp [shellParseL]

theorem shellParseL_sq_other (c : Char) (l : List Char) (h : ¬ c = '\'') :
    shellParseL ShMode.sq (c :: l) =
      (shellParseL ShMode.sq l).map (fun r => c :: r) := by
  simp [shellParseL, h]

theorem shellParseL_unq_quote (l : List Char) :
    shellParseL ShMode.unq ('\'' :: l) = shellParseL ShMode.sq l := by
  cases l <;> simp [shellParseL]

theorem shellParseL_unq_dquote (l : List Char) :
    shellParseL ShMode.unq ('"' :: l) = shellParseL ShMode.dq l := by
  cases l <;> simp [shellParseL]

theorem shellParseL_dq_quote (l : List Char) :
    shellParseL ShMode.dq ('\'' :: l) =
      (shellParseL ShMode.dq l).map (fun r => '\'' :: r) := by
  simp [shellParseL]

theorem shellParseL_dq_dquote (l : List Char) :
    shellParseL ShMode.dq ('"' :: l) = shellParseL ShMode.unq l := by
  simp [shellParseL]

theorem shellParseL_escQuote (l : List Char) :
    shellParseL ShMode.sq (escQuoteL l ++ ['\'']) = some l := by
  induction l with
  | nil => rw [show escQuoteL [] ++ ['\''] = ['\''] from rfl,
      shellParseL_sq_quote]; rfl
  | cons c cs ih =>
    by_cases h : c = '\''
    · subst h
      rw [show escQuoteL ('\'' :: cs) ++ ['\''] =
          '\'' :: '"' :: '\'' :: '"' :: '\'' :: (escQuoteL cs ++ ['\''])
          from rfl,
        shellParseL_sq_quote, shellParseL_unq_dquote, shellParseL_dq_quote,
        shellParseL_dq_dquote, shellParseL_unq_quote, ih]
      rfl
    · rw [show escQuoteL (c :: cs) = if c = '\'' then
          '\'' :: '"' :: '\'' :: '"' :: '\'' :: escQuoteL cs
          else c :: escQuoteL cs from rfl,
        if_neg h, List.cons_append, shellParseL_sq_other c _ h, ih]
      rfl

/-- C1 (amended from "four-character" to "five-character"): the quoting
transformation used when building command lines wraps the input in single
quotes after replacing every single quote with the five-character
sequence `'"'"'`; for every string `s` (including strings containing
single quotes, double quotes, backticks, dollar signs, semicolons, pipes,
newlines, control characters, the empty string, and strings consisting
only of single quotes) the resulting shell fragment is parsed by a
POSIX-compatible shell-literal parser back to exactly `s`.  The
transformation is a pure total Lean function. -/
theorem quoteArg_shellRoundTrip :
    escQuote "'" = "'\"'\"'" ∧ ∀ s : String, shellParse (quoteArg s) = some s := by
  refine ⟨by decide, fun s => ?_⟩
  have hdata : (quoteArg s).data = '\'' :: (escQuoteL s.data ++ ['\'']) := rfl
  unfold shellParse
  rw [hdata, shellParseL_unq_quote, shellParseL_escQuote]
  rfl

/-- C1 counterexample: the claim calls the replacement for a single quote
a four-character sequence, but the sequence substituted by the code,
`'"'"'`, has five characters: escaping the one-character string `'`
yields a five-character string, and the full quoted form of `'` has seven
characters, not six. -/
theorem quote_fourChar_cex :
    escQuote "'" = "'\"'\"'" ∧ (escQuote "'").length = 5 ∧
      ¬ (escQuote "'").length = 4 ∧ (quoteArg "'").length = 7 := by
  decide

/-- The error object thrown by a failed `execSync` call: the captured
error stream of the subprocess, when any, and the error message. -/
structure ExecError where
  stderr : Option String
  message : String
deriving DecidableEq, Repr

/-- The JavaScript expression `err.stderr || err.message`: the error
stream text when it is present and non-empty (JavaScript truthiness),
otherwise the generic failure message. -/
def errFallback (e : ExecError) : String :=
  match e.stderr with
  | some s => if s = "" then e.message else s
  | none => e.message

/-- Model of `runAppleScript` from src/index.ts: build the command
`osascript -e '<escaped script>'`, run it, and return the trimmed output;
a failure is re-thrown as an error whose message is
`AppleScript error: ` followed by `err.stderr || err.message`. -/
def runAppleScript (exec : String → Except ExecError String)
    (script : String) : Except String String :=
  match exec ("osascript -e " ++ quoteArg script) with
  | .ok out => .ok out.trim
  | .error e => .error ("AppleScript error: " ++ errFallback e)

/-- JavaScript truthiness of a `string | undefined` value: `undefined`
and the empty string are falsy. -/
def jsTruthy : Option String → Bool
  | none => false
  | some s => s != ""

/-- The command line built by `runShortcut`:
`shortcuts run '<escaped name>'` followed by ` -i '<escaped input>'` when
the input is present and non-empty (the source guards the input part with
JavaScript truthiness: `input ? \x60 -i '...'\x60 : ''`). -/
def shortcutCmd (name : String) (input : Option String) : String :=
  "shortcuts run " ++ quoteArg name ++
    (if jsTruthy input then " -i " ++ quoteArg (input.getD "") else "")

/-- Model of `runShortcut` from src/index.ts: build the command, run it,
and return the trimmed output; a failure is re-thrown as an error whose
message is `Shortcut error: ` followed by `err.stderr || err.message`. -/
def runShortcut (exec : String → Except ExecError String)
    (name : String) (input : Option String) : Except String String :=
  match exec (shortcutCmd name input) with
  | .ok out => .ok out.trim
  | .error e => .error ("Shortcut error: " ++ errFallback e)

/-- One `{ type: "text", text: ... }` content block of a tool response. -/
structure TextBlock where
  type : String
  text : String
deriving DecidableEq, Repr

/-- The response envelope returned by the request handler: a sequence of
content blocks and the optional `isError` flag (`none` models an absent
field). -/
structure ToolResponse where
  content : List TextBlock
  isError : Option Bool
deriving DecidableEq, Repr

/-- The argument map of a tool request, projected onto every field any of
the ten operations reads.  Each field is optional: `none` models an
absent (JavaScript `undefined`) argument. -/
structure Args where
  scene : Option String := none
  shortcutName : Option String := none
  action : Option String := none
  filter : Option String := none
  room : Option String := none
  temperature : Option Int := none
  unit : Option String := none
deriving DecidableEq, Repr

/-- JavaScript string interpolation of a possibly-undefined number:
`undefined` renders as the text `undefined`. -/
def jsStrI : Option Int → String
  | some n => toString n
  | none => "undefined"

/-- Model of JavaScript `toLowerCase()` on the character range in play
(ASCII): lowercase every character. -/
def toLowerJs (s : String) : String := ⟨s.data.map Char.toLower⟩

/-- JavaScript `haystack.includes(needle)`: substring containment. -/
def strIncludes (s sub : String) : Bool := decide (sub.data <:+: s.data)

/-- The fixed keyword test of `home_list_shortcuts` with no filter: a
line is kept when its lowercasing contains one of the seven keywords. -/
def keywordPred (s : String) : Bool :=
  strIncludes (toLowerJs s) "light" || strIncludes (toLowerJs s) "home" ||
  strIncludes (toLowerJs s) "scene" || strIncludes (toLowerJs s) "lock" ||
  strIncludes (toLowerJs s) "thermostat" || strIncludes (toLowerJs s) "door" ||
  strIncludes (toLowerJs s) "room"

/-- The line selection of `home_list_shortcuts`: when the lowercased
filter is truthy, keep the lines whose lowercasing contains it; otherwise
keep the lines matching the fixed keyword set. -/
def homeRelatedLines (filter : Option String) (shortcuts : List String) :
    List String :=
  let fl := filter.map toLowerJs
  if jsTruthy fl then
    shortcuts.filter (fun s => strIncludes (toLowerJs s) (fl.getD ""))
  else
    shortcuts.filter keywordPred

/-- The shortcut name built by `home_lights_on`:
`` `${room} Lights On` `` when the room argument is truthy, else the
fixed name `Lights On`. -/
def lightsOnName (room : Option String) : String :=
  if jsTruthy room then room.getD "" ++ " Lights On" else "Lights On"

/-- The Siri voice phrasing offered by `home_lights_on`. -/
def lightsOnVoice (room : Option String) : String :=
  if jsTruthy room then "turn on " ++ room.getD "" ++ " lights"
  else "turn on the lights"

/-- The shortcut name built by `home_lights_off`. -/
def lightsOffName (room : Option String) : String :=
  if jsTruthy room then room.getD "" ++ " Lights Off" else "Lights Off"

/-- The Siri voice phrasing offered by `home_lights_off`. -/
def lightsOffVoice (room : Option String) : String :=
  if jsTruthy room then "turn off " ++ room.getD "" ++ " lights"
  else "turn off the lights"

/-- The thermostat unit after the destructuring default
`unit = 'fahrenheit'`: the default applies only when the argument is
absent (JavaScript `undefined`); an empty string remains empty. -/
def effUnit (u : Option String) : String := u.getD "fahrenheit"

/-- The textual payload `home_set_thermostat` sends to the automation:
`` `${temperature} degrees ${unit}` ``. -/
def tempPayload (t : Option Int) (u : Option String) : String :=
  jsStrI t ++ " degrees " ++ effUnit u

/-- The unit letter rendered in thermostat confirmation and guidance
text: `C` exactly when the effective unit is the literal `celsius`,
otherwise `F`. -/
def unitLetter (u : Option String) : String :=
  if effUnit u = "celsius" then "C" else "F"

/-- The fixed AppleScript body run by `home_open` and
`home_get_status`. -/
def openHomeScript : String := "tell application \"Home\" to activate"

/-- The V8 TypeError message produced when `home_control_device` is
called without a `shortcutName` and `runShortcut` dereferences
`undefined` (`name.replace` on `undefined`). -/
def tsUndefinedReplaceMsg : String :=
  "Cannot read properties of undefined (reading 'replace')"

/-- Splitting of a character list at newline characters, modelling the
JavaScript `result.split('\n')`: the separators are removed and empty
segments are kept. -/
def splitOnNlL : List Char → List (List Char)
  | [] => [[]]
  | c :: cs =>
    if c = '\n' then [] :: splitOnNlL cs
    else
      match splitOnNlL cs with
      | [] => [[c]]
      | h :: t => (c :: h) :: t

/-- String-level newline splitting, modelling `result.split('\n')`. -/
def splitLines (s : String) : List String :=
  (splitOnNlL s.data).map (fun l => ⟨l⟩)

/-- Model of JavaScript `s.trim()`: drop whitespace from both ends. -/
def jsTrim (s : String) : String :=
  ⟨((s.data.dropWhile Char.isWhitespace).reverse.dropWhile
      Char.isWhitespace).reverse⟩

/-- Model of JavaScript `array.join('\n')`. -/
def joinNl : List String → String
  | [] => ""
  | [s] => s
  | s :: rest => s ++ "\n" ++ joinNl rest

/-- The ten catalogued operation names. -/
def toolNames : List String :=
  ["home_open", "home_run_scene", "home_control_device",
   "home_list_shortcuts", "home_lights_on", "home_lights_off",
   "home_set_thermostat", "home_lock_doors", "home_unlock_doors",
   "home_get_status"]

/-- Model of the `CallToolRequestSchema` handler of src/index.ts: the
dispatch on the request name, the per-operation argument extraction,
invocation and response shaping, the `default` unknown-tool branch, and
the outer catch converting an uncaught exception into a generic error
response.  When a required argument is absent the JavaScript source
dereferences or interpolates `undefined`; the model mirrors the resulting
behaviour (interpolation renders the text `undefined`; calling
`runShortcut` with an undefined name throws a TypeError that the
per-operation catch receives). -/
def handleToolCall (exec : String → Except ExecError String)
    (name : String) (args : Args) : ToolResponse :=
  if name = "home_open" then
    match runAppleScript exec openHomeScript with
    | .ok _ => ⟨[⟨"text", "Home app opened"⟩], none⟩
    | .error e => ⟨[⟨"text", "Error: " ++ e⟩], some true⟩
  else if name = "home_run_scene" then
    match args.scene with
    | some scene =>
      match runShortcut exec scene none with
      | .ok _ => ⟨[⟨"text", "Activated scene: " ++ scene⟩], none⟩
      | .error _ =>
        ⟨[⟨"text", "To run scene \"" ++ scene ++
          "\", please create a Shortcut with that name that activates the HomeKit scene."⟩],
         none⟩
    | none =>
      ⟨[⟨"text", "To run scene \"undefined\", please create a Shortcut with that name that activates the HomeKit scene."⟩],
       none⟩
  else if name = "home_control_device" then
    match args.shortcutName with
    | some sn =>
      match runShortcut exec sn args.action with
      | .ok _ =>
        ⟨[⟨"text", "Executed shortcut: " ++ sn ++
          (if jsTruthy args.action then " with action: " ++ args.action.getD ""
           else "")⟩], none⟩
      | .error msg =>
        ⟨[⟨"text", "Error running shortcut \"" ++ sn ++ "\": " ++ msg⟩],
         some true⟩
    | none =>
      ⟨[⟨"text", "Error running shortcut \"undefined\": " ++
        tsUndefinedReplaceMsg⟩], some true⟩
  else if name = "home_list_shortcuts" then
    let fl := args.filter.map toLowerJs
    match exec "shortcuts list" with
    | .ok result =>
      let shortcuts := (splitLines result).filter (fun s => jsTrim s != "")
      let homeRelated := homeRelatedLines args.filter shortcuts
      if homeRelated.isEmpty then
        ⟨[⟨"text",
          if jsTruthy fl then "No shortcuts found matching: " ++ fl.getD ""
          else "No Home-related shortcuts found. Create Shortcuts in the Shortcuts app to control your Home devices."⟩],
         none⟩
      else
        ⟨[⟨"text", "Available Shortcuts:\n" ++ joinNl homeRelated⟩], none⟩
    | .error _ =>
      ⟨[⟨"text", "Error listing shortcuts. Make sure Shortcuts app is available."⟩],
       some true⟩
  else if name = "home_lights_on" then
    match runShortcut exec (lightsOnName args.room) none with
    | .ok _ =>
      ⟨[⟨"text", "Lights on" ++
        (if jsTruthy args.room then " in " ++ args.room.getD "" else "")⟩],
       none⟩
    | .error _ =>
      ⟨[⟨"text", "To turn on lights" ++
        (if jsTruthy args.room then " in " ++ args.room.getD "" else "") ++
        ", create a Shortcut named \"" ++ lightsOnName args.room ++
        "\" that controls your HomeKit lights.\n\nAlternatively, you can say to Siri: \"" ++
        lightsOnVoice args.room ++ "\""⟩], none⟩
  else if name = "home_lights_off" then
    match runShortcut exec (lightsOffName args.room) none with
    | .ok _ =>
      ⟨[⟨"text", "Lights off" ++
        (if jsTruthy args.room then " in " ++ args.room.getD "" else "")⟩],
       none⟩
    | .error _ =>
      ⟨[⟨"text", "To turn off lights" ++
        (if jsTruthy args.room then " in " ++ args.room.getD "" else "") ++
        ", create a Shortcut named \"" ++ lightsOffName args.room ++
        "\" that controls your HomeKit lights.\n\nAlternatively, you can say to Siri: \"" ++
        lightsOffVoice args.room ++ "\""⟩], none⟩
  else if name = "home_set_thermostat" then
    match runShortcut exec "Set Thermostat"
        (some (tempPayload args.temperature args.unit)) with
    | .ok _ =>
      ⟨[⟨"text", "Thermostat set to " ++ jsStrI args.temperature ++ "°" ++
        unitLetter args.unit⟩], none⟩
    | .error _ =>
      ⟨[⟨"text", "To set thermostat to " ++ jsStrI args.temperature ++ "°" ++
        unitLetter args.unit ++
        ", create a Shortcut named \"Set Thermostat\" that controls your HomeKit thermostat.\n\nAlternatively, you can say to Siri: \"Set the thermostat to " ++
        tempPayload args.temperature args.unit ++ "\""⟩], none⟩
  else if name = "home_lock_doors" then
    match runShortcut exec "Lock Doors" none with
    | .ok _ => ⟨[⟨"text", "Doors locked"⟩], none⟩
    | .error _ =>
      ⟨[⟨"text", "To lock doors, create a Shortcut named \"Lock Doors\" that controls your HomeKit locks.\n\nAlternatively, you can say to Siri: \"Lock all doors\""⟩],
       none⟩
  else if name = "home_unlock_doors" then
    match runShortcut exec "Unlock Doors" none with
    | .ok _ => ⟨[⟨"text", "Doors unlocked"⟩], none⟩
    | .error _ =>
      ⟨[⟨"text", "To unlock doors, create a Shortcut named \"Unlock Doors\" that controls your HomeKit locks.\n\nAlternatively, you can say to Siri: \"Unlock all doors\""⟩],
       none⟩
  else if name = "home_get_status" then
    match runAppleScript exec openHomeScript with
    | .ok _ =>
      ⟨[⟨"text", "Home app opened. Note: HomeKit device status is not accessible via AppleScript. View status in the Home app."⟩],
       none⟩
    | .error e => ⟨[⟨"text", "Error: " ++ e⟩], some true⟩
  else
    ⟨[⟨"text", "Unknown tool: " ++ name⟩], some true⟩

/-- An external world in which every invocation succeeds with the given
output. -/
def okExec (out : String) : String → Except ExecError String :=
  fun _ => .ok out

/-- An external world in which every invocation fails with the given
error. -/
def failExec (e : ExecError) : String → Except ExecError String :=
  fun _ => .error e

theorem toLowerJs_eq_empty_iff (f : String) : toLowerJs f = "" ↔ f = "" := by
  cases f with
  | mk d =>
    constructor
    · intro h
      have hd : d.map Char.toLower = [] := congrArg String.data h
      have hnil : d = [] := List.map_eq_nil_iff.mp hd
      rw [hnil]
    · intro h
      have hnil : d = [] := congrArg String.data h
      rw [hnil]
      rfl

/-- C2: with every external invocation failing, the response has
`isError` absent exactly for the six quick actions (`home_run_scene`,
`home_lights_on`, `home_lights_off`, `home_set_thermostat`,
`home_lock_doors`, `home_unlock_doors`), and `isError: true` for the
other four operations (`home_open`, `home_control_device`,
`home_list_shortcuts`, `home_get_status`), for every error object and
every argument map. -/
theorem failure_partition (e : ExecError) (args : Args) :
    (handleToolCall (failExec e) "home_run_scene" args).isError = none
  ∧ (handleToolCall (failExec e) "home_lights_on" args).isError = none
  ∧ (handleToolCall (failExec e) "home_lights_off" args).isError = none
  ∧ (handleToolCall (failExec e) "home_set_thermostat" args).isError = none
  ∧ (handleToolCall (failExec e) "home_lock_doors" args).isError = none
  ∧ (handleToolCall (failExec e) "home_unlock_doors" args).isError = none
  ∧ (handleToolCall (failExec e) "home_open" args).isError = some true
  ∧ (handleToolCall (failExec e) "home_control_device" args).isError = some true
  ∧ (handleToolCall (failExec e) "home_list_shortcuts" args).isError = some true
  ∧ (handleToolCall (failExec e) "home_get_status" args).isError = some true := by
  obtain ⟨sc, sn, ac, fi, ro, te, un⟩ := args
  refine ⟨?_, ?_, ?_, ?_, ?_, ?_, ?_, ?_, ?_, ?_⟩
  · cases sc <;> simp [handleToolCall, runShortcut, failExec]
  · simp [handleToolCall, runShortcut, failExec]
  · simp [handleToolCall, runShortcut, failExec]
  · simp [handleToolCall, runShortcut, failExec]
  · simp [handleToolCall, runShortcut, failExec]
  · simp [handleToolCall, runShortcut, failExec]
  · simp [handleToolCall, runAppleScript, failExec]
  · cases sn <;> simp [handleToolCall, runShortcut, failExec]
  · simp [handleToolCall, failExec]
  · simp [handleToolCall, runAppleScript, failExec]

/-- C3: a request whose name is not one of the ten catalogued operation
names is answered with `isError: true` and a single text block reading
exactly `Unknown tool: ` followed by the request name, for every external
world and argument map. -/
theorem unknown_tool_error (exec : String → Except ExecError String)
    (name : String) (args : Args) (h : name ∉ toolNames) :
    handleToolCall exec name args =
      ⟨[⟨"text", "Unknown tool: " ++ name⟩], some true⟩ := by
  simp only [toolNames, List.mem_cons, List.mem_singleton, not_or] at h
  obtain ⟨h1, h2, h3, h4, h5, h6, h7, h8, h9, h10⟩ := h
  simp [handleToolCall, h1, h2, h3, h4, h5, h6, h7, h8, h9, h10]

/-- C3 witness: the request name `not_a_real_tool` yields a response
whose text is exactly `Unknown tool: not_a_real_tool`, with
`isError: true`. -/
theorem unknown_tool_error_witness :
    handleToolCall (okExec "") "not_a_real_tool" {} =
      ⟨[⟨"text", "Unknown tool: not_a_real_tool"⟩], some true⟩ := by
  have h := unknown_tool_error (okExec "") "not_a_real_tool" {} (by decide)
  exact h

/-- C4: the thermostat unit defaults to the literal `fahrenheit` when
absent; the payload sent to the automation is always
`<temperature> degrees <unit>` with the caller's number and unit
forwarded verbatim (no Celsius/Fahrenheit arithmetic); on success
`{temperature: 72}` answers exactly `Thermostat set to 72°F` and
`{temperature: 22, unit: "celsius"}` answers exactly
`Thermostat set to 22°C`. -/
theorem thermostat_formatting :
    effUnit none = "fahrenheit"
  ∧ (∀ (t : Option Int) (u : String),
      tempPayload t (some u) = jsStrI t ++ " degrees " ++ u)
  ∧ (∀ t : Option Int,
      tempPayload t none = jsStrI t ++ " degrees " ++ "fahrenheit")
  ∧ tempPayload (some 72) none = "72 degrees fahrenheit"
  ∧ handleToolCall (okExec "") "home_set_thermostat"
      { temperature := some 72 } =
      ⟨[⟨"text", "Thermostat set to 72°F"⟩], none⟩
  ∧ handleToolCall (okExec "") "home_set_thermostat"
      { temperature := some 22, unit := some "celsius" } =
      ⟨[⟨"text", "Thermostat set to 22°C"⟩], none⟩ := by
  refine ⟨rfl, fun t u => rfl, fun t => rfl, by decide, by decide, by decide⟩

/-- C5 counterexample: with the filter argument given as the empty
string, the line `Unrelated` contains the filter as a (case-insensitive)
substring, yet it is not kept: JavaScript truthiness makes an empty
filter behave like an absent one, so the keyword branch runs and the
response is the no-filter explanatory text instead of the listing the
claim dictates. -/
theorem list_filter_empty_cex :
    strIncludes (toLowerJs "Unrelated") (toLowerJs "") = true
  ∧ handleToolCall (okExec "Unrelated") "home_list_shortcuts"
      { filter := some "" } =
      ⟨[⟨"text", "No Home-related shortcuts found. Create Shortcuts in the Shortcuts app to control your Home devices."⟩], none⟩
  ∧ ¬ handleToolCall (okExec "Unrelated") "home_list_shortcuts"
      { filter := some "" } =
      ⟨[⟨"text", "Available Shortcuts:\nUnrelated"⟩], none⟩ := by
  decide

/-- C5 (amended: a NON-EMPTY filter argument selects the lines containing
it case-insensitively; an absent or empty filter selects the lines
matching the fixed keyword set): the enumeration output is split into
lines, whitespace-only lines are dropped, the surviving lines are
filtered as amended, an empty surviving set yields an explanatory text
with `isError` absent, and a non-empty one yields the newline-joined
lines under the header `Available Shortcuts:`; on the catalogue
`Lights On, Lights Off, Lock Doors, Unrelated, Bedroom Scene` with no
filter everything but `Unrelated` is kept. -/
theorem list_filter_amended (f : String) (lines : List String) :
    (f ≠ "" → homeRelatedLines (some f) lines =
      lines.filter (fun s => strIncludes (toLowerJs s) (toLowerJs f)))
  ∧ homeRelatedLines none lines = lines.filter keywordPred
  ∧ homeRelatedLines (some "") lines = lines.filter keywordPred
  ∧ handleToolCall
      (okExec "Lights On\nLights Off\nLock Doors\nUnrelated\nBedroom Scene")
      "home_list_shortcuts" {} =
      ⟨[⟨"text", "Available Shortcuts:\nLights On\nLights Off\nLock Doors\nBedroom Scene"⟩], none⟩
  ∧ handleToolCall (okExec "Lights On\n   \n\nLock Doors")
      "home_list_shortcuts" { filter := some "lights" } =
      ⟨[⟨"text", "Available Shortcuts:\nLights On"⟩], none⟩
  ∧ handleToolCall (okExec "Unrelated\nAnother One")
      "home_list_shortcuts" {} =
      ⟨[⟨"text", "No Home-related shortcuts found. Create Shortcuts in the Shortcuts app to control your Home devices."⟩], none⟩
  ∧ handleToolCall (okExec "Unrelated") "home_list_shortcuts"
      { filter := some "xyz" } =
      ⟨[⟨"text", "No shortcuts found matching: xyz"⟩], none⟩ := by
  refine ⟨fun hf => ?_, rfl, rfl, by decide, by decide, by decide, by decide⟩
  have ht : toLowerJs f ≠ "" := fun hz =>
    hf ((toLowerJs_eq_empty_iff f).mp hz)
  simp [homeRelatedLines, jsTruthy, bne_iff_ne, ht]

/-- C5 witness: applying the amended filtering rule at the concrete
filter `lights` on a two-line catalogue keeps exactly the line containing
it. -/
theorem list_filter_amended_witness :
    homeRelatedLines (some "lights") ["Lights On", "Lock Doors"] =
      ["Lights On"] := by
  have h := (list_filter_amended "lights" ["Lights On", "Lock Doors"]).1
    (by decide)
  rw [h]
  decide

/-- C6 counterexample: with the room argument given as the empty string,
the invoked shortcut name is `Lights On`, not the claimed
`<room> Lights On` (which would be ` Lights On`): JavaScript truthiness
makes an empty room behave like an absent one. -/
theorem lights_room_empty_cex :
    lightsOnName (some "") = "Lights On"
  ∧ ¬ lightsOnName (some "") = "" ++ " Lights On" := by
  decide

/-- C6 (amended: for every NON-EMPTY room string the invoked name is
`<room> Lights On`; with no room argument, or an empty room, it is
`Lights On`): the name is built verbatim with no case normalization, on
`{room: "living room"}` the invoked automation name is exactly
`living room Lights On` and the invoked command line is
`shortcuts run 'living room Lights On'`, and on invocation failure the
guidance response (its `isError` absent) names that exact automation and
the voice phrasing `turn on living room lights`. -/
theorem lights_on_room_amended (r : String) (e : ExecError) :
    (r ≠ "" → lightsOnName (some r) = r ++ " Lights On")
  ∧ lightsOnName none = "Lights On"
  ∧ lightsOnName (some "") = "Lights On"
  ∧ lightsOnName (some "living room") = "living room Lights On"
  ∧ shortcutCmd (lightsOnName (some "living room")) none =
      "shortcuts run 'living room Lights On'"
  ∧ handleToolCall (failExec e) "home_lights_on"
      { room := some "living room" } =
      ⟨[⟨"text", "To turn on lights in living room, create a Shortcut named \"living room Lights On\" that controls your HomeKit lights.\n\nAlternatively, you can say to Siri: \"turn on living room lights\""⟩], none⟩ := by
  refine ⟨fun hr => ?_, rfl, by decide, by decide, by decide, ?_⟩
  · simp [lightsOnName, jsTruthy, bne_iff_ne, hr]
  · simp [handleToolCall, runShortcut, failExec, lightsOnName,
      lightsOnVoice, jsTruthy]

/-- C6 witness: the amended rule at the concrete room `bedroom`. -/
theorem lights_on_room_witness :
    lightsOnName (some "bedroom") = "bedroom Lights On" := by
  have h := (lights_on_room_amended "bedroom" ⟨none, "x"⟩).1 (by decide)
  rw [h]
  decide

/-- C7: for every external world, request name and argument map, the
response's content sequence is non-empty: every reachable branch of the
dispatcher, the unknown-operation branch and the outer catch included,
produces at least one text block. -/
theorem content_never_empty (exec : String → Except ExecError String)
    (name : String) (args : Args) :
    (handleToolCall exec name args).content ≠ [] := by
  simp only [handleToolCall]
  by_cases h1 : name = "home_open"
  · rw [if_pos h1]
    rcases hA : runAppleScript exec openHomeScript with o | e <;>
      exact List.cons_ne_nil _ _
  rw [if_neg h1]
  by_cases h2 : name = "home_run_scene"
  · rw [if_pos h2]
    rcases hs : args.scene with _ | sc
    · exact List.cons_ne_nil _ _
    · dsimp only
      rcases hr : runShortcut exec sc none with o | er <;>
        exact List.cons_ne_nil _ _
  rw [if_neg h2]
  by_cases h3 : name = "home_control_device"
  · rw [if_pos h3]
    rcases hsn : args.shortcutName with _ | sn
    · exact List.cons_ne_nil _ _
    · dsimp only
      rcases hr : runShortcut exec sn args.action with o | er <;>
        exact List.cons_ne_nil _ _
  rw [if_neg h3]
  by_cases h4 : name = "home_list_shortcuts"
  · rw [if_pos h4]
    rcases hre : exec "shortcuts list" with er | r
    · exact List.cons_ne_nil _ _
    · split <;> first
        | exact List.cons_ne_nil _ _
        | (split <;> exact List.cons_ne_nil _ _)
  rw [if_neg h4]
  by_cases h5 : name = "home_lights_on"
  · rw [if_pos h5]
    rcases hr : runShortcut exec (lightsOnName args.room) none with o | er <;>
      exact List.cons_ne_nil _ _
  rw [if_neg h5]
  by_cases h6 : name = "home_lights_off"
  · rw [if_pos h6]
    rcases hr : runShortcut exec (lightsOffName args.room) none with o | er <;>
      exact List.cons_ne_nil _ _
  rw [if_neg h6]
  by_cases h7 : name = "home_set_thermostat"
  · rw [if_pos h7]
    rcases hr : runShortcut exec "Set Thermostat"
        (some (tempPayload args.temperature args.unit)) with o | er <;>
      exact List.cons_ne_nil _ _
  rw [if_neg h7]
  by_cases h8 : name = "home_lock_doors"
  · rw [if_pos h8]
    rcases hr : runShortcut exec "Lock Doors" none with o | er <;>
      exact List.cons_ne_nil _ _
  rw [if_neg h8]
  by_cases h9 : name = "home_unlock_doors"
  · rw [if_pos h9]
    rcases hr : runShortcut exec "Unlock Doors" none with o | er <;>
      exact List.cons_ne_nil _ _
  rw [if_neg h9]
  by_cases h10 : name = "home_get_status"
  · rw [if_pos h10]
    rcases hA : runAppleScript exec openHomeScript with o | e <;>
      exact List.cons_ne_nil _ _
  rw [if_neg h10]
  exact List.cons_ne_nil _ _

/-- C8: the diagnostic of a failed invocation is the subprocess error
stream when it is present and non-empty, otherwise the generic failure
message; on a failed `home_control_device` invocation the response has
`isError: true` and its text embeds the diagnostic verbatim in the shape
`Error running shortcut "<name>": Shortcut error: <diagnostic>` (the
diagnostic is a verbatim suffix of the text). -/
theorem control_device_diagnostic :
    (∀ m : String, errFallback ⟨none, m⟩ = m)
  ∧ (∀ s m : String, errFallback ⟨some s, m⟩ = if s = "" then m else s)
  ∧ (∀ (sn : String) (act : Option String) (e : ExecError),
      handleToolCall (failExec e) "home_control_device"
        { shortcutName := some sn, action := act } =
        ⟨[⟨"text", "Error running shortcut \"" ++ sn ++ "\": " ++
          ("Shortcut error: " ++ errFallback e)⟩], some true⟩)
  ∧ (∀ (sn : String) (e : ExecError), ∃ p : String,
      "Error running shortcut \"" ++ sn ++ "\": " ++
        ("Shortcut error: " ++ errFallback e) = p ++ errFallback e) := by
  refine ⟨fun m => rfl, fun s m => rfl, fun sn act e => ?_, fun sn e => ?_⟩
  · simp [handleToolCall, runShortcut, failExec]
  · exact ⟨"Error running shortcut \"" ++ sn ++ "\": " ++ "Shortcut error: ",
      (String.append_assoc _ _ _).symm⟩

/-- C9: for `home_control_device`, an empty action argument behaves
exactly like an absent one: the built command line omits the ` -i '...'`
part entirely, the whole response is the same in every external world,
and on success the confirmation text is exactly
`Executed shortcut: <name>` with no ` with action:` suffix. -/
theorem empty_action_absent :
    (∀ n : String, shortcutCmd n (some "") = shortcutCmd n none)
  ∧ (∀ (exec : String → Except ExecError String) (n : String),
      handleToolCall exec "home_control_device"
        { shortcutName := some n, action := some "" } =
      handleToolCall exec "home_control_device"
        { shortcutName := some n, action := none })
  ∧ (∀ (n out : String),
      handleToolCall (okExec out) "home_control_device"
        { shortcutName := some n, action := some "" } =
        ⟨[⟨"text", "Executed shortcut: " ++ n⟩], none⟩) := by
  refine ⟨fun n => rfl, fun exec n => rfl, fun n out => ?_⟩
  simp [handleToolCall, runShortcut, okExec, jsTruthy, String.append_empty]

/-- C10: the thermostat unit is not validated here: every unit string
other than the exact lowercase literal `celsius` renders as `F` in the
confirmation text, while the payload forwarded to the automation still
carries the caller's unit string verbatim; in particular
`{temperature: 72, unit: "Celsius"}` answers `Thermostat set to 72°F`. -/
theorem thermostat_unit_unvalidated :
    (∀ (t : Option Int) (u : String), u ≠ "celsius" →
      unitLetter (some u) = "F" ∧
      tempPayload t (some u) = jsStrI t ++ " degrees " ++ u)
  ∧ handleToolCall (okExec "") "home_set_thermostat"
      { temperature := some 72, unit := some "Celsius" } =
      ⟨[⟨"text", "Thermostat set to 72°F"⟩], none⟩ := by
  refine ⟨fun t u hu => ⟨?_, rfl⟩, by decide⟩
  simp [unitLetter, effUnit, hu]

/-- C10 witness: the non-lowercase unit `Celsius` renders as `F` and is
still forwarded verbatim in the payload. -/
theorem thermostat_unit_unvalidated_witness :
    unitLetter (some "Celsius") = "F" ∧
    tempPayload (some 72) (some "Celsius") =
      jsStrI (some 72) ++ " degrees " ++ "Celsius" :=
  thermostat_unit_unvalidated.1 (some 72) "Celsius" (by decide)
